import Mathlib

/-!
Shallow embedding of the aircraft-tracker core (`src/antenna_parser.py`).

Numbers that the Python program stores in JSON documents (coordinates,
speeds, distances, epoch seconds) are modelled as rationals `ℚ`; the
transcendental arithmetic inside `haversine_km` is carried out over `ℝ`
and only its rounded result (a decimal with three fractional digits,
hence a rational) is stored, exactly as the source rounds with
`round(R * c, 3)` before storing.

Python dicts are modelled as association lists in insertion order
(Python dicts preserve insertion order, and `json.dumps`/`json.loads`
round-trips preserve the key order of the document).
-/

namespace Tracker

/-- One value of the per-hex JSON document: an observation dict as built by
`build_observation` (fields `hex, seen_pos, lat, lon, altitude, speed,
vert_rate, track, flight, distance_km, timestamp`). Optional numeric fields
are `Option ℚ` (`none` = JSON `null`); `flight` is always a string (the
source stores `(plane.get("flight") or "").strip()`). -/
structure Obs where
  hex : String
  seen_pos : Option ℚ
  lat : Option ℚ
  lon : Option ℚ
  altitude : Option ℚ
  speed : Option ℚ
  vert_rate : Option ℚ
  track : Option ℚ
  flight : String
  distance_km : Option ℚ
  timestamp : String
deriving DecidableEq

/-- A per-hex session document: mapping from timestamp key to observation,
in insertion order (Python dict). -/
abbrev Session := List (String × Obs)

/-- One element of dump1090's `aircraft` list: a loosely-shaped dict.
`none` models both an absent key and an explicit JSON `null`, matching the
source's uniform `plane.get(k, None)` access. -/
structure Plane where
  hex : Option String
  seen_pos : Option ℚ
  lat : Option ℚ
  lon : Option ℚ
  altitude : Option ℚ
  speed : Option ℚ
  vert_rate : Option ℚ
  track : Option ℚ
  flight : Option String
deriving DecidableEq

/-- hexdb.io metadata: a JSON object, modelled as a string-to-string
association list (the identifier fields the source reads are strings). -/
abbrev Meta := List (String × String)

/-- `HEXDB_CACHE`: hex → (metadata dict, fetched_at epoch seconds). -/
abbrev Cache := List (String × (Meta × ℚ))

/-- Python dict read `d.get(k)`: first binding of the key, if any. -/
def dictFind {α : Type} (d : List (String × α)) (k : String) : Option α :=
  (d.find? (fun e => e.1 == k)).map Prod.snd

/-- Python dict write `d[k] = v`: replace in place if the key is bound,
otherwise append a new binding at the end (insertion order). -/
def dictSet {α : Type} (d : List (String × α)) (k : String) (v : α) :
    List (String × α) :=
  if (d.find? (fun e => e.1 == k)).isSome then
    d.map (fun e => if e.1 == k then (k, v) else e)
  else d ++ [(k, v)]

/-- `HEXDB_CACHE.pop(hexcode, None)`: drop the binding if present. -/
def dictPop {α : Type} (d : List (String × α)) (k : String) :
    List (String × α) :=
  d.filter (fun e => e.1 != k)

/-- Python `str.lower()`: lowercase every character (written over the
character list so that it evaluates by kernel reduction). -/
def pyLower (s : String) : String := (s.data.map Char.toLower).asString

/-- Python `str.strip()`: drop whitespace from both ends. -/
def pyStrip (s : String) : String :=
  ((s.data.dropWhile Char.isWhitespace).reverse.dropWhile
    Char.isWhitespace).reverse.asString

/-! ### Decimal rendering of the collision-suffix counter

The source builds collision keys with the f-string `f"\x7bts\x7d-\x7battempt\x7d"`,
i.e. the decimal digits of `attempt` appended after a hyphen. `decDigits`
computes the little-endian decimal digits (with explicit fuel so that it is
structurally recursive), and `natDecimal` renders them most-significant
first, which is exactly the decimal numeral of `attempt`. -/

def decDigits : ℕ → ℕ → List ℕ
  | 0, _ => []
  | fuel + 1, n => if n = 0 then [] else n % 10 :: decDigits fuel (n / 10)

/-- Decimal numeral of a natural number (what `f"\x7battempt\x7d"` prints). -/
def natDecimal (n : ℕ) : String :=
  if n = 0 then "0" else ((decDigits n n).reverse.map Nat.digitChar).asString

/-! ### Observation construction (`build_observation`) and the distance
calculator (`haversine_km`).

`math.radians / sin / cos / sqrt / atan2` act on IEEE doubles in the
source; they are modelled by the corresponding exact real functions. The
result stored in the observation is `round(R * c, 3)`, a decimal with
three fractional digits, modelled as a rational by `round3`. (Python's
`round` ties to even while Mathlib's `round` ties upward; the difference
arises only at exact midpoints and no claim below depends on it.) -/

noncomputable def radians (x : ℝ) : ℝ := x * Real.pi / 180

/-- `math.atan2 y x`: quadrant-aware arc tangent. -/
noncomputable def atan2 (y x : ℝ) : ℝ :=
  if 0 < x then Real.arctan (y / x)
  else if x < 0 then
    (if 0 ≤ y then Real.arctan (y / x) + Real.pi
     else Real.arctan (y / x) - Real.pi)
  else
    (if 0 < y then Real.pi / 2 else if y < 0 then -(Real.pi / 2) else 0)

/-- `round(x, 3)` as a rational. -/
noncomputable def round3 (x : ℝ) : ℚ := (round (x * 1000) : ℤ) / 1000

/-- `haversine_km` (source lines 81–92): great-circle distance in km,
rounded to 3 decimal digits. Note the source takes `math.sqrt(a)` and
`math.sqrt(1 - a)` directly, with no clamping of `a` to `[0, 1]`. -/
noncomputable def haversine_km (lat1 lon1 lat2 lon2 : ℚ) : ℚ :=
  let lat1r := radians (lat1 : ℝ)
  let lon1r := radians (lon1 : ℝ)
  let lat2r := radians (lat2 : ℝ)
  let lon2r := radians (lon2 : ℝ)
  let dlat := lat2r - lat1r
  let dlon := lon2r - lon1r
  let a := Real.sin (dlat / 2) ^ 2 +
    Real.cos lat1r * Real.cos lat2r * Real.sin (dlon / 2) ^ 2
  let c := 2 * atan2 (Real.sqrt a) (Real.sqrt (1 - a))
  round3 (6371 * c)

/-- `build_observation` (source lines 209–231). The current UTC instant is
ambient state in the source (`datetime.datetime.utcnow()`); it is passed
explicitly as `now_utc`. -/
noncomputable def build_observation (plane : Plane) (home_lat home_lon : ℚ)
    (now_utc : String) : Obs where
  hex := pyLower (plane.hex.getD "")
  seen_pos := plane.seen_pos
  lat := plane.lat
  lon := plane.lon
  altitude := plane.altitude
  speed := plane.speed
  vert_rate := plane.vert_rate
  track := plane.track
  flight := pyStrip (plane.flight.getD "")
  distance_km :=
    match plane.lat, plane.lon with
    | some la, some lo => some (haversine_km home_lat home_lon la lo)
    | _, _ => none
  timestamp := now_utc

/-! ### Selection (`select_max_distance_datapoint`, source lines 234–258) -/

/-- The `for ts, obs in data.items()` scan: threads
`(best_ts, best_obs)` (paired, since the source always updates them
together) and `best_dist`, starting from `(None, None, -1.0)`. -/
def select_loop : Session → Option (String × Obs) → ℚ →
    Option (String × Obs) × ℚ
  | [], best, best_dist => (best, best_dist)
  | (ts, obs) :: rest, best, best_dist =>
    match obs.distance_km with
    | none => select_loop rest best best_dist
    | some d =>
      if d > best_dist then select_loop rest (some (ts, obs)) d
      else select_loop rest best best_dist

/-- `select_max_distance_datapoint`: scan for the maximum non-null
`distance_km`; if no observation carried a distance, fall back to the
entry with the lexicographically greatest timestamp key
(`max(data.keys())`). The source returns the pair `(None, None)` when
`data` is empty; both components are always `None` together, so the
result is modelled as one `Option` of the pair. -/
def select_max_distance_datapoint (data : Session) :
    Option (String × Obs) :=
  if data.isEmpty then none
  else
    match select_loop data none (-1) with
    | (some best, _) => some best
    | (none, _) =>
      match (data.map Prod.fst).max? with
      | some ts =>
        match dictFind data ts with
        | some obs => some (ts, obs)
        | none => none
      | none => none

/-- `ensure_flight_info` (source lines 261–270): if the selected
observation's `flight` is empty, copy in the first non-empty `flight`
found scanning the session in insertion order. -/
def ensure_flight_info (best_obs : Obs) (all_obs : Session) : Obs :=
  if best_obs.flight ≠ "" then best_obs
  else
    match all_obs.find? (fun e => e.2.flight != "") with
    | some e => { best_obs with flight := e.2.flight }
    | none => best_obs

/-! ### Metadata cache (`get_hexdb_metadata`, source lines 179–206) -/

/-- Outcome of `SESSION.get(url, ...)` in `get_hexdb_metadata`. -/
inductive FetchResult where
  /-- HTTP 200 with parsed JSON body. -/
  | ok (meta : Meta)
  /-- non-200 status: the source logs it and uses an empty dict. -/
  | httpError
  /-- request (or body parse) raised: the source logs and uses an empty dict. -/
  | exn
deriving DecidableEq

/-- The `meta` value the fetch block of `get_hexdb_metadata` produces. -/
def hexdb_fetch_meta : FetchResult → Meta
  | .ok m => m
  | .httpError => []
  | .exn => []

/-- `get_hexdb_metadata`: returns the metadata served, the cache state
afterwards, and how many external calls were performed (0 or 1). `now` is
`time.time()`; `ttl` is `CONFIG["hexdb_cache_ttl"]`. -/
def get_hexdb_metadata (cache : Cache) (hexcode : String) (now ttl : ℚ)
    (fetch : FetchResult) : Meta × Cache × ℕ :=
  let hexcode := pyLower hexcode
  match dictFind cache hexcode with
  | some (meta, fetched_at) =>
    if now - fetched_at < ttl then (meta, cache, 0)
    else
      let meta := hexdb_fetch_meta fetch
      (meta, dictSet cache hexcode (meta, now), 1)
  | none =>
    let meta := hexdb_fetch_meta fetch
    (meta, dictSet cache hexcode (meta, now), 1)

/-! ### Finalized record (`build_db_row`, source lines 273–302) -/

/-- Python truthiness of `meta.get(k)` inside an `or` chain: an absent key
or an empty string both fall through to the next alternative. -/
def meta_get (meta : Meta) (key : String) : Option String :=
  match dictFind meta key with
  | some v => if v = "" then none else some v
  | none => none

/-- A row of the `flights` table. `json_blob` holds
`json.dumps(sample_obs)`, a verbatim serialization of the representative
observation; it is modelled as the observation itself. -/
structure Row where
  hex : String
  airline : String
  registration : String
  aircraft : String
  aircraft_icao : String
  max_distance_km : Option ℚ
  latitude : Option ℚ
  longitude : Option ℚ
  altitude : Option ℚ
  speed : Option ℚ
  vert_rate : Option ℚ
  track : Option ℚ
  first_seen_time : String
  last_seen_time : String
  sample_time_of_max : String
  json_blob : Obs
deriving DecidableEq

/-- `build_db_row`: builds the row and (because it calls
`get_hexdb_metadata` on the module-level cache) also returns the cache
state afterwards and the number of external calls made. -/
def build_db_row (hexcode sample_ts : String) (sample_obs : Obs)
    (first_seen_ts last_seen_ts : String) (cache : Cache) (now ttl : ℚ)
    (fetch : FetchResult) : Row × Cache × ℕ :=
  let g := get_hexdb_metadata cache hexcode now ttl fetch
  let meta := g.1
  let airline := (meta_get meta "RegisteredOwners" <|> meta_get meta "owner"
    <|> meta_get meta "airline").getD ""
  let registration := (meta_get meta "Registration"
    <|> meta_get meta "registration").getD ""
  let aircraft := (meta_get meta "Type" <|> meta_get meta "TypeName"
    <|> meta_get meta "type").getD ""
  let icao := (meta_get meta "ICAOTypeCode" <|> meta_get meta "icao").getD ""
  (⟨hexcode, airline, registration, aircraft, icao,
    sample_obs.distance_km, sample_obs.lat, sample_obs.lon,
    sample_obs.altitude, sample_obs.speed, sample_obs.vert_rate,
    sample_obs.track, first_seen_ts, last_seen_ts, sample_ts, sample_obs⟩,
   g.2.1, g.2.2)

/-! ### Ingest path (`main` loop body, source lines 370–400) -/

/-- The `while store_key in hd: attempt += 1; store_key = f"\x7bts\x7d-\x7battempt\x7d"`
collision loop. The Python loop runs until the key is free; termination is
modelled with fuel `keys.length + 2`, which is enough to reach a free key
(`choose_store_key_spec` below proves the result is never a key of the
session). -/
def store_key_loop (keys : List String) (ts : String) :
    String → ℕ → ℕ → String
  | store_key, _attempt, 0 => store_key
  | store_key, attempt, fuel + 1 =>
    if store_key ∈ keys then
      store_key_loop keys ts (ts ++ "-" ++ natDecimal (attempt + 1))
        (attempt + 1) fuel
    else store_key

/-- The store key actually used for an observation timestamped `ts` in a
session whose key set is `keys`: `ts` itself if free, else the first free
`ts-2`, `ts-3`, … -/
def choose_store_key (keys : List String) (ts : String) : String :=
  store_key_loop keys ts ts 1 (keys.length + 2)

/-- The per-plane body of the polling loop (source lines 370–400):
filter (identity non-empty, `seen_pos` present and ≤ 300, coordinates
present), build the observation, and append it to the per-hex session
under a collision-free timestamp key. Reports failing the filter leave the
session untouched. -/
noncomputable def ingest_step (plane : Plane) (home_lat home_lon : ℚ)
    (now_utc : String) (hd : Session) : Session :=
  let hexcode := pyLower (pyStrip (plane.hex.getD ""))
  if hexcode = "" then hd
  else
    match plane.seen_pos with
    | none => hd
    | some sp =>
      if sp > 300 then hd
      else if plane.lat.isNone || plane.lon.isNone then hd
      else
        let obs := build_observation plane home_lat home_lon now_utc
        let store_key := choose_store_key (hd.map Prod.fst) obs.timestamp
        hd ++ [(store_key, obs)]

/-! ### Cleanup / finalization (`main` loop, source lines 410–453) -/

/-- Result of one per-hex cleanup iteration: the row inserted into the
sink (if any), whether the per-hex file was deleted, and the metadata
cache state afterwards. -/
structure CleanupResult where
  inserted : Option Row
  deleted : Bool
  cache : Cache
deriving DecidableEq

/-- The body of the cleanup pass for one tracked hex file (source lines
413–451), starting from the loaded session `data`. The age computed from
the parsed last timestamp and the wall clock is passed in as
`age_seconds`; `insert_ok` is whether `insert_row_into_db` succeeds (if it
raises, the per-hex `except` clause catches it and the file is NOT
unlinked). On successful insert the file is unlinked and the hex is popped
from the metadata cache. -/
def cleanup_hex (hexcode : String) (data : Session)
    (age_seconds cleanup_age : ℚ) (cache : Cache) (now ttl : ℚ)
    (fetch : FetchResult) (insert_ok : Bool) : CleanupResult :=
  if data.isEmpty then ⟨none, true, cache⟩
  else
    let timestamps := (data.map Prod.fst).mergeSort (fun a b => a ≤ b)
    if age_seconds < cleanup_age then ⟨none, false, cache⟩
    else
      let first_seen := timestamps.head?.getD ""
      let last_seen := timestamps.getLast?.getD ""
      match select_max_distance_datapoint data with
      | none => ⟨none, true, cache⟩
      | some (sample_ts, sample_obs) =>
        let sample_obs := ensure_flight_info sample_obs data
        let b := build_db_row hexcode sample_ts sample_obs first_seen
          last_seen cache now ttl fetch
        if insert_ok then ⟨some b.1, true, dictPop b.2.1 hexcode⟩
        else ⟨none, false, b.2.1⟩

/-! ### Auxiliary definitions for the proofs, and concrete inputs used
by the per-claim theorems and witnesses below. -/

/-- Value of a little-endian digit list (left inverse of `decDigits`). -/
def fromDigits : List ℕ → ℕ
  | [] => 0
  | d :: ds => d + 10 * fromDigits ds

/-- The candidate tried at loop counter `attempt`: the raw timestamp for
`attempt = 1`, the suffixed variant `ts-attempt` afterwards. -/
def cand (ts : String) (k : ℕ) : String :=
  if k ≤ 1 then ts else ts ++ "-" ++ natDecimal k

def c1_obs1 : Obs :=
  ⟨"abc123", some 10, some 51, some 0, none, none, none, none, "",
    some 5, "2025-01-01T00:00:00Z"⟩

def c1_obs2 : Obs :=
  ⟨"abc123", some 10, some 51, some 0, none, none, none, none, "BA123",
    some 5, "2025-01-01T00:00:05Z"⟩

def c1_session : Session :=
  [("2025-01-01T00:00:00Z", c1_obs1), ("2025-01-01T00:00:05Z", c1_obs2)]

def c2_meta : Meta := [("Registration", "G-ABCD")]

def c2_cache : Cache := [("abc", (c2_meta, 0))]

def c9_cache : Cache := [("a1b2c3", ([("Registration", "N12345")], 100))]

def c6_plane : Plane :=
  ⟨some "AB12CD", some 10, some 52, some 4, some 10000, some 250, none,
    some 90, some "BA123"⟩

def c6_plane_nolat : Plane :=
  ⟨some "AB12CD", some 10, none, some 4, some 10000, some 250, none,
    some 90, some "BA123"⟩

def c6_session : Session :=
  [("2025-01-01T00:00:00Z",
    ⟨"ab12cd", some 9, some 52, some 4, none, none, none, none, "",
      some 1, "2025-01-01T00:00:00Z"⟩)]

def c7_best : Obs :=
  ⟨"xyz999", some 3, some 52, some 4, none, none, none, none, "",
    some (25 / 2), "2025-01-01T00:10:00Z"⟩

def c7_all : Session :=
  [("2025-01-01T00:05:00Z",
    ⟨"xyz999", some 3, some 52, some 4, none, none, none, none, "UA77",
      some 5, "2025-01-01T00:05:00Z"⟩),
   ("2025-01-01T00:10:00Z", c7_best)]

def c8_obs : Obs :=
  ⟨"ab12cd", some 1, some 52, some 4, none, none, none, none, "",
    some 7, "2025-01-01T00:00:00Z"⟩

def c8_session : Session := [("2025-01-01T00:00:00Z", c8_obs)]

def c3_obs1 : Obs :=
  ⟨"xyz999", some 3, some 52, some 4, none, none, none, none, "",
    some 13, "2025-01-01T00:05:00Z"⟩

def c3_obs2 : Obs :=
  ⟨"xyz999", some 3, some 52, some 4, none, none, none, none, "BA123",
    some 5, "2025-01-01T00:10:00Z"⟩

def c3_session : Session :=
  [("2025-01-01T00:05:00Z", c3_obs1), ("2025-01-01T00:10:00Z", c3_obs2)]

def c5_obs : Obs :=
  ⟨"ab12cd", some 3, some 52, some 4, none, none, none, none, "BA123",
    some 9, "2025-01-01T00:00:00Z"⟩

def c5_data : Session := [("2025-01-01T00:00:00Z", c5_obs)]

def c10_plane : Plane :=
  ⟨some "AB12CD", some 5, some 52, some 4, none, none, none, none, none⟩

noncomputable def c10_data : Session :=
  [("2025-01-01T00:00:00Z",
    build_observation c10_plane 51 0 "2025-01-01T00:00:00Z")]

/-! ### Invariants of the selection scan -/

/-- Invariant of the `for ts, obs in data.items()` scan of
`select_max_distance_datapoint`: the final best distance dominates the
initial one and every non-null distance in the list, and the final best
entry is either the untouched initial state or an entry of the list whose
distance equals the final best distance. -/
theorem select_loop_spec (l : Session) :
    ∀ (best : Option (String × Obs)) (bd : ℚ),
    bd ≤ (select_loop l best bd).2 ∧
    (∀ e ∈ l, ∀ d, e.2.distance_km = some d → d ≤ (select_loop l best bd).2) ∧
    ((select_loop l best bd).1 = best ∧ (select_loop l best bd).2 = bd ∨
     ∃ e ∈ l, (select_loop l best bd).1 = some e ∧
       e.2.distance_km = some (select_loop l best bd).2) := by
  induction l with
  | nil => intro best bd; simp [select_loop]
  | cons hd tl ih =>
    intro best bd
    obtain ⟨ts, obs⟩ := hd
    rcases hdist : obs.distance_km with _ | d
    · have h := ih best bd
      simp only [select_loop, hdist]
      refine ⟨h.1, ?_, ?_⟩
      · intro e he d' hd'
        rcases List.mem_cons.mp he with rfl | he'
        · simp only [hdist] at hd'
          exact Option.noConfusion hd'
        · exact h.2.1 e he' d' hd'
      · rcases h.2.2 with h' | ⟨e, he, h1, h2⟩
        · exact Or.inl h'
        · exact Or.inr ⟨e, List.mem_cons_of_mem _ he, h1, h2⟩
    · by_cases hgt : d > bd
      · have h := ih (some (ts, obs)) d
        simp only [select_loop, hdist, if_pos hgt]
        refine ⟨le_trans (le_of_lt hgt) h.1, ?_, ?_⟩
        · intro e he d' hd'
          rcases List.mem_cons.mp he with rfl | he'
          · simp only [hdist, Option.some_inj] at hd'
            exact hd' ▸ h.1
          · exact h.2.1 e he' d' hd'
        · rcases h.2.2 with ⟨h1, h2⟩ | ⟨e, he, h1, h2⟩
          · exact Or.inr ⟨(ts, obs), List.mem_cons_self _ _, h1,
              by rw [h2, hdist]⟩
          · exact Or.inr ⟨e, List.mem_cons_of_mem _ he, h1, h2⟩
      · have h := ih best bd
        simp only [select_loop, hdist, if_neg hgt]
        refine ⟨h.1, ?_, ?_⟩
        · intro e he d' hd'
          rcases List.mem_cons.mp he with rfl | he'
          · simp only [hdist, Option.some_inj] at hd'
            exact hd' ▸ le_trans (not_lt.mp hgt) h.1
          · exact h.2.1 e he' d' hd'
        · rcases h.2.2 with h' | ⟨e, he, h1, h2⟩
          · exact Or.inl h'
          · exact Or.inr ⟨e, List.mem_cons_of_mem _ he, h1, h2⟩

/-- If some entry of the session carries a distance above the `-1.0`
sentinel, the scan terminates with a best entry whose distance is the
maximum of all non-null distances. -/
theorem select_loop_finds_max (data : Session) (e₀ : String × Obs)
    (he₀ : e₀ ∈ data) (d₀ : ℚ) (hd₀ : e₀.2.distance_km = some d₀)
    (hgt : -1 < d₀) :
    ∃ e, (select_loop data none (-1)).1 = some e ∧ e ∈ data ∧
      e.2.distance_km = some ((select_loop data none (-1)).2) ∧
      ∀ e' ∈ data, ∀ d, e'.2.distance_km = some d →
        d ≤ (select_loop data none (-1)).2 := by
  have h := select_loop_spec data none (-1)
  rcases h.2.2 with ⟨_, h2⟩ | ⟨e, he, h1, h2⟩
  · exact absurd (lt_of_lt_of_le hgt (h.2.1 e₀ he₀ d₀ hd₀)) (by rw [h2]; simp)
  · exact ⟨e, h1, he, h2, h.2.1⟩

/-- When the scan ends with a best entry, `select_max_distance_datapoint`
returns exactly that entry (the fallback branch is not taken). -/
theorem select_eq_of_scan (data : Session) (e : String × Obs)
    (h : (select_loop data none (-1)).1 = some e) :
    select_max_distance_datapoint data = some e := by
  cases data with
  | nil => simp [select_loop] at h
  | cons x xs =>
    rcases hr : select_loop (x :: xs) none (-1) with ⟨r1, r2⟩
    rw [hr] at h
    simp only at h
    subst h
    simp [select_max_distance_datapoint, hr]

/-- A key occurring in the key list of a Python dict can be read back. -/
theorem dictFind_isSome_of_mem {α : Type} (d : List (String × α))
    (k : String) (h : k ∈ d.map Prod.fst) : ∃ v, dictFind d k = some v := by
  induction d with
  | nil => simp at h
  | cons e tl ih =>
    by_cases he : e.1 = k
    · refine ⟨e.2, ?_⟩
      unfold dictFind
      rw [List.find?_cons_of_pos _ (by simp [he])]
      rfl
    · have h' : k ∈ tl.map Prod.fst := by
        rcases (by simpa using h : k = e.1 ∨ k ∈ tl.map Prod.fst) with h'' | h''
        · exact absurd h''.symm he
        · exact h''
      obtain ⟨v, hv⟩ := ih h'
      refine ⟨v, ?_⟩
      unfold dictFind at hv ⊢
      rw [List.find?_cons_of_neg _ (by simp [he])]
      exact hv

/-- On a non-empty session, `select_max_distance_datapoint` always
returns an entry (the `return None, None` paths are unreachable). -/
theorem select_some_of_ne_nil (data : Session) (h : data ≠ []) :
    ∃ e, select_max_distance_datapoint data = some e := by
  rcases hscan : (select_loop data none (-1)).1 with _ | e
  · cases data with
    | nil => exact absurd rfl h
    | cons x xs =>
      rcases hmax : ((x :: xs).map Prod.fst).max? with _ | m
      · simp [List.max?_eq_none_iff] at hmax
      · have hmem : m ∈ (x :: xs).map Prod.fst :=
          List.max?_mem (fun a b => max_choice a b) hmax
        obtain ⟨v, hv⟩ := dictFind_isSome_of_mem _ _ hmem
        refine ⟨(m, v), ?_⟩
        rcases hr : select_loop (x :: xs) none (-1) with ⟨r1, r2⟩
        rw [hr] at hscan
        simp only at hscan
        subst hscan
        simp only [select_max_distance_datapoint, List.isEmpty_cons, hr,
          hmax, hv, if_false, Bool.false_eq_true]
  · exact ⟨e, select_eq_of_scan data e hscan⟩

/-! ### The collision suffix is a faithful decimal numeral: injectivity -/

theorem decDigits_lt (fuel : ℕ) :
    ∀ n, ∀ d ∈ decDigits fuel n, d < 10 := by
  induction fuel with
  | zero => intro n d hd; simp [decDigits] at hd
  | succ f ih =>
    intro n d hd
    by_cases hn : n = 0
    · simp [decDigits, hn] at hd
    · simp only [decDigits, if_neg hn] at hd
      rcases List.mem_cons.mp hd with rfl | hd'
      · exact Nat.mod_lt _ (by norm_num)
      · exact ih _ d hd'

theorem fromDigits_decDigits (fuel : ℕ) :
    ∀ n, n ≤ fuel → fromDigits (decDigits fuel n) = n := by
  induction fuel with
  | zero => intro n hn; interval_cases n; simp [decDigits, fromDigits]
  | succ f ih =>
    intro n hn
    by_cases hn0 : n = 0
    · simp [decDigits, hn0, fromDigits]
    · have hdiv : n / 10 ≤ f := by
        have := Nat.div_lt_self (Nat.pos_of_ne_zero hn0) (by norm_num : 1 < 10)
        omega
      simp only [decDigits, if_neg hn0, fromDigits, ih _ hdiv]
      omega

theorem digitChar_inj_lt (a b : ℕ) (ha : a < 10) (hb : b < 10)
    (h : Nat.digitChar a = Nat.digitChar b) : a = b := by
  interval_cases a <;> interval_cases b <;> revert h <;> decide

theorem map_digitChar_inj :
    ∀ l1 l2 : List ℕ, (∀ d ∈ l1, d < 10) → (∀ d ∈ l2, d < 10) →
    l1.map Nat.digitChar = l2.map Nat.digitChar → l1 = l2 := by
  intro l1
  induction l1 with
  | nil => intro l2 _ _ h; cases l2 <;> simp_all
  | cons a t1 ih =>
    intro l2 h1 h2 h
    cases l2 with
    | nil => simp at h
    | cons b t2 =>
      simp only [List.map_cons, List.cons.injEq] at h
      have hab : a = b := digitChar_inj_lt a b
        (h1 a (List.mem_cons_self _ _)) (h2 b (List.mem_cons_self _ _)) h.1
      have ht : t1 = t2 := ih t2
        (fun d hd => h1 d (List.mem_cons_of_mem _ hd))
        (fun d hd => h2 d (List.mem_cons_of_mem _ hd)) h.2
      rw [hab, ht]

theorem asString_inj {l1 l2 : List Char} (h : l1.asString = l2.asString) :
    l1 = l2 :=
  congrArg String.data h

theorem natDecimal_ne_zero_str (b : ℕ) (hb : b ≠ 0) : natDecimal b ≠ "0" := by
  intro h
  unfold natDecimal at h
  rw [if_neg hb] at h
  have hdata : (decDigits b b).reverse.map Nat.digitChar = ['0'] :=
    @asString_inj _ ['0'] (by rw [h]; rfl)
  rcases hdec : decDigits b b with _ | ⟨d, ds⟩
  · have := fromDigits_decDigits b b le_rfl
    rw [hdec] at this
    simp [fromDigits] at this
    exact hb this.symm
  · rw [hdec] at hdata
    simp only [List.reverse_cons, List.map_append, List.map_cons,
      List.map_nil] at hdata
    have hlen := congrArg List.length hdata
    simp at hlen
    subst hlen
    simp at hdata
    have hd10 : d < 10 := decDigits_lt b b d (by rw [hdec]; simp)
    have : d = 0 := digitChar_inj_lt d 0 hd10 (by norm_num) (by
      rw [hdata]; decide)
    subst this
    have := fromDigits_decDigits b b le_rfl
    rw [hdec] at this
    simp [fromDigits] at this
    exact hb this.symm

theorem natDecimal_inj (a b : ℕ) (h : natDecimal a = natDecimal b) :
    a = b := by
  by_cases ha : a = 0
  · by_cases hb : b = 0
    · rw [ha, hb]
    · subst ha
      exact absurd h.symm (by simpa [natDecimal] using natDecimal_ne_zero_str b hb)
  · by_cases hb : b = 0
    · subst hb
      exact absurd h (by simpa [natDecimal] using natDecimal_ne_zero_str a ha)
    · unfold natDecimal at h
      rw [if_neg ha, if_neg hb] at h
      have hdata := asString_inj h
      have hrev : (decDigits a a).reverse = (decDigits b b).reverse :=
        map_digitChar_inj _ _
          (fun d hd => decDigits_lt a a d (List.mem_reverse.mp hd))
          (fun d hd => decDigits_lt b b d (List.mem_reverse.mp hd)) hdata
      have hdec : decDigits a a = decDigits b b :=
        List.reverse_injective hrev
      have := fromDigits_decDigits a a le_rfl
      rw [hdec, fromDigits_decDigits b b le_rfl] at this
      exact this.symm

/-! ### Freshness of the chosen store key -/

theorem cand_one (ts : String) : cand ts 1 = ts := by
  unfold cand
  rw [if_pos le_rfl]

theorem cand_of_two_le (ts : String) (k : ℕ) (hk : 2 ≤ k) :
    cand ts k = ts ++ "-" ++ natDecimal k := by
  unfold cand
  rw [if_neg (by omega)]

theorem string_append_cancel_left {s t u : String}
    (h : s ++ t = s ++ u) : t = u := by
  have hd := congrArg String.data h
  rw [String.data_append, String.data_append] at hd
  have := List.append_cancel_left hd
  cases t; cases u; exact congrArg String.mk this

theorem cand_inj (ts : String) (j k : ℕ) (hj : 1 ≤ j) (hk : 1 ≤ k)
    (h : cand ts j = cand ts k) : j = k := by
  have hlen : ∀ m, 2 ≤ m → (cand ts m).length = ts.length + 1 + (natDecimal m).length := by
    intro m hm
    have hdash : ("-" : String).length = 1 := rfl
    rw [cand_of_two_le ts m hm, String.length_append, String.length_append,
      hdash]
  by_cases h2j : 2 ≤ j
  · by_cases h2k : 2 ≤ k
    · rw [cand_of_two_le ts j h2j, cand_of_two_le ts k h2k] at h
      have hsuffix : "-" ++ natDecimal j = "-" ++ natDecimal k := by
        have : ts ++ ("-" ++ natDecimal j) = ts ++ ("-" ++ natDecimal k) := by
          rw [← String.append_assoc, ← String.append_assoc]; exact h
        exact string_append_cancel_left this
      exact natDecimal_inj j k (string_append_cancel_left hsuffix)
    · have hk1 : k = 1 := by omega
      subst hk1
      rw [cand_one] at h
      have := hlen j h2j
      rw [h] at this
      have hnd : 1 ≤ (natDecimal j).length := by
        unfold natDecimal
        split
        · decide
        · rcases hd : decDigits j j with _ | ⟨d, ds⟩
          · exfalso
            have := fromDigits_decDigits j j le_rfl
            rw [hd] at this
            simp [fromDigits] at this
            omega
          · simp [List.asString, String.length, hd]
      omega
  · have hj1 : j = 1 := by omega
    subst hj1
    by_cases h2k : 2 ≤ k
    · rw [cand_one] at h
      have := hlen k h2k
      rw [← h] at this
      have hnd : 1 ≤ (natDecimal k).length := by
        unfold natDecimal
        split
        · decide
        · rcases hd : decDigits k k with _ | ⟨d, ds⟩
          · exfalso
            have := fromDigits_decDigits k k le_rfl
            rw [hd] at this
            simp [fromDigits] at this
            omega
          · simp [List.asString, String.length, hd]
      omega
    · omega

theorem exists_free_cand (keys : List String) (ts : String) :
    ∃ j, j < keys.length + 2 ∧ cand ts (1 + j) ∉ keys := by
  by_contra hall
  push_neg at hall
  have hsub : ∀ s ∈ (List.range (keys.length + 2)).map
      (fun j => cand ts (1 + j)), s ∈ keys := by
    intro s hs
    obtain ⟨j, hj, rfl⟩ := List.mem_map.mp hs
    exact hall j (List.mem_range.mp hj)
  have hnodup : ((List.range (keys.length + 2)).map
      (fun j => cand ts (1 + j))).Nodup := by
    refine List.Nodup.map_on ?_ (List.nodup_range _)
    intro x _ y _ hxy
    have := cand_inj ts (1 + x) (1 + y) (by omega) (by omega) hxy
    omega
  have h1 : ((List.range (keys.length + 2)).map
      (fun j => cand ts (1 + j))).length = keys.length + 2 := by simp
  have h2 := List.toFinset_card_of_nodup hnodup
  have h3 : ((List.range (keys.length + 2)).map
      (fun j => cand ts (1 + j))).toFinset ⊆ keys.toFinset := by
    intro s hs
    exact List.mem_toFinset.mpr (hsub s (List.mem_toFinset.mp hs))
  have h4 := Finset.card_le_card h3
  have h5 := List.toFinset_card_le keys
  omega

theorem store_key_loop_spec (keys : List String) (ts : String) :
    ∀ fuel attempt, 1 ≤ attempt →
    (∃ j, j < fuel ∧ cand ts (attempt + j) ∉ keys) →
    ∃ k, attempt ≤ k ∧
      store_key_loop keys ts (cand ts attempt) attempt fuel = cand ts k ∧
      cand ts k ∉ keys := by
  intro fuel
  induction fuel with
  | zero =>
    rintro attempt _ ⟨j, hj, _⟩
    omega
  | succ f ih =>
    rintro attempt h1 ⟨j, hj, hfree⟩
    by_cases hmem : cand ts attempt ∈ keys
    · have hj0 : j ≠ 0 := by
        rintro rfl
        exact hfree (by simpa using hmem)
      have hc : ts ++ "-" ++ natDecimal (attempt + 1) = cand ts (attempt + 1) :=
        (cand_of_two_le ts (attempt + 1) (by omega)).symm
      obtain ⟨k, hk1, hk2, hk3⟩ := ih (attempt + 1) (by omega)
        ⟨j - 1, by omega, by
          have harith : attempt + 1 + (j - 1) = attempt + j := by omega
          rw [harith]; exact hfree⟩
      refine ⟨k, by omega, ?_, hk3⟩
      simp only [store_key_loop, if_pos hmem, hc]
      exact hk2
    · exact ⟨attempt, le_rfl, by simp only [store_key_loop, if_neg hmem], hmem⟩

/-- The collision loop always lands on a key that is not yet in the
session, and past the raw timestamp it only tries suffixed variants. -/
theorem choose_store_key_spec (keys : List String) (ts : String) :
    choose_store_key keys ts ∉ keys ∧
    (choose_store_key keys ts = ts ∨
     ∃ n, 2 ≤ n ∧ choose_store_key keys ts = ts ++ "-" ++ natDecimal n) := by
  obtain ⟨j, hj, hfree⟩ := exists_free_cand keys ts
  obtain ⟨k, hk1, hk2, hk3⟩ := store_key_loop_spec keys ts
    (keys.length + 2) 1 le_rfl ⟨j, hj, hfree⟩
  have hchoose : choose_store_key keys ts = cand ts k := by
    unfold choose_store_key
    rw [← cand_one ts]
    exact hk2
  constructor
  · rw [hchoose]; exact hk3
  · by_cases h2 : 2 ≤ k
    · exact Or.inr ⟨k, h2, by rw [hchoose, cand_of_two_le ts k h2]⟩
    · have : k = 1 := by omega
      subst this
      exact Or.inl (by rw [hchoose, cand_one])

/-! ### Nonnegativity of the computed distance -/

theorem arctan_nonneg_of_nonneg (x : ℝ) (h : 0 ≤ x) : 0 ≤ Real.arctan x := by
  have := Real.arctan_strictMono.monotone h
  rwa [Real.arctan_zero] at this

theorem atan2_nonneg (y x : ℝ) (hy : 0 ≤ y) (hx : 0 ≤ x) :
    0 ≤ atan2 y x := by
  unfold atan2
  rcases lt_or_eq_of_le hx with hx' | hx'
  · rw [if_pos hx']
    exact arctan_nonneg_of_nonneg _ (div_nonneg hy (le_of_lt hx'))
  · have hx0 : x = 0 := hx'.symm
    subst hx0
    rw [if_neg (lt_irrefl 0), if_neg (lt_irrefl 0)]
    by_cases hy0 : 0 < y
    · rw [if_pos hy0]
      exact le_of_lt (div_pos Real.pi_pos two_pos)
    · rw [if_neg hy0, if_neg (not_lt.mpr hy)]

theorem round3_nonneg (x : ℝ) (h : 0 ≤ x) : 0 ≤ round3 x := by
  unfold round3
  have h1 : (0 : ℤ) ≤ round (x * 1000) := by
    rw [round_eq]
    exact Int.floor_nonneg.mpr (by linarith)
  apply div_nonneg _ (by norm_num)
  exact_mod_cast h1

/-- The stored distance is a rounded nonnegative quantity, in particular
strictly above the `-1.0` sentinel of the selection scan. -/
theorem haversine_km_nonneg (lat1 lon1 lat2 lon2 : ℚ) :
    0 ≤ haversine_km lat1 lon1 lat2 lon2 := by
  unfold haversine_km
  apply round3_nonneg
  refine mul_nonneg (by norm_num) (mul_nonneg (by norm_num) ?_)
  exact atan2_nonneg _ _ (Real.sqrt_nonneg _) (Real.sqrt_nonneg _)

/-! ### Structure of the flight-number merge -/

/-- `List.find?` returns the first element satisfying the predicate. -/
theorem find?_first {α : Type} (p : α → Bool) :
    ∀ l : List α, ∀ a, l.find? p = some a →
    ∃ pre suf, l = pre ++ a :: suf ∧ (∀ x ∈ pre, p x = false) ∧
      p a = true := by
  intro l
  induction l with
  | nil => intro a h; simp [List.find?] at h
  | cons x t ih =>
    intro a h
    by_cases hx : p x
    · rw [List.find?_cons_of_pos _ hx] at h
      obtain rfl : x = a := by simpa using h
      exact ⟨[], t, rfl, by simp, hx⟩
    · rw [List.find?_cons_of_neg _ (by simpa using hx)] at h
      obtain ⟨pre, suf, heq, hpre, hpa⟩ := ih a h
      refine ⟨x :: pre, suf, by rw [heq]; rfl, ?_, hpa⟩
      intro z hz
      rcases List.mem_cons.mp hz with rfl | hz'
      · simpa using hx
      · exact hpre z hz'

/-- The merge never touches any field but `flight`. -/
theorem ensure_flight_info_frame (best : Obs) (all : Session) :
    (ensure_flight_info best all).hex = best.hex ∧
    (ensure_flight_info best all).seen_pos = best.seen_pos ∧
    (ensure_flight_info best all).lat = best.lat ∧
    (ensure_flight_info best all).lon = best.lon ∧
    (ensure_flight_info best all).altitude = best.altitude ∧
    (ensure_flight_info best all).speed = best.speed ∧
    (ensure_flight_info best all).vert_rate = best.vert_rate ∧
    (ensure_flight_info best all).track = best.track ∧
    (ensure_flight_info best all).distance_km = best.distance_km ∧
    (ensure_flight_info best all).timestamp = best.timestamp := by
  unfold ensure_flight_info
  split
  · simp
  · split <;> simp

/-! ### Claim C1 -/

/-- C1: the spec (and the source's own comment, line 245) says equally-far
observations are tie-broken towards the latest timestamp, but the scan
uses a strict `d > best_dist` comparison over the session in insertion
(= chronological) order, so the FIRST (earliest) of two equally-far
observations is kept. On a session with two observations of equal
distance 5.0 km at timestamps 00:00:00 and 00:00:05, selection returns
the 00:00:00 observation. -/
theorem select_tie_prefers_earliest :
    select_max_distance_datapoint c1_session =
      some ("2025-01-01T00:00:00Z", c1_obs1) ∧
    c1_obs1.distance_km = c1_obs2.distance_km ∧
    ("2025-01-01T00:00:00Z" : String).data <
      ("2025-01-01T00:00:05Z" : String).data := by
  refine ⟨by decide, by decide, by decide⟩

/-! ### Claim C2 -/

/-- C2 is false on the code: with a cached entry fetched at epoch 0,
`ttl = 86400`, a lookup at `now = 86400` (expired) whose fetch raises
does NOT return the previously cached entry, and does NOT leave its
fetched-at timestamp unchanged — the code stores `(\x7b\x7d, now)` over it
and returns the empty dict. -/
theorem hexdb_stale_failure_counterexample :
    ¬ ((get_hexdb_metadata c2_cache "abc" 86400 86400 .exn).1 = c2_meta ∧
       dictFind (get_hexdb_metadata c2_cache "abc" 86400 86400 .exn).2.1
         "abc" = some (c2_meta, 0)) := by
  have h : get_hexdb_metadata c2_cache "abc" 86400 86400 .exn =
      ([], dictSet c2_cache (pyLower "abc") ([], 86400), 1) := by
    simp only [get_hexdb_metadata, hexdb_fetch_meta,
      show dictFind c2_cache (pyLower "abc") = some (c2_meta, 0) from
        by decide]
    rw [if_neg (by norm_num : ¬ ((86400 : ℚ) - 0 < 86400))]
  rw [h]
  decide

/-- C2 (amended): when the cached entry has expired and the fetch raises,
the lookup returns the empty metadata dict and overwrites the cache entry
with `(empty, now)` — so until another ttl elapses, subsequent lookups
serve the empty entry without retrying. -/
theorem hexdb_stale_failure_overwrites (cache : Cache) (hexcode : String)
    (now ttl : ℚ) (meta : Meta) (fetched_at : ℚ)
    (hmem : dictFind cache (pyLower hexcode) = some (meta, fetched_at))
    (hexp : ttl ≤ now - fetched_at) :
    get_hexdb_metadata cache hexcode now ttl .exn =
      ([], dictSet cache (pyLower hexcode) ([], now), 1) := by
  simp only [get_hexdb_metadata, hmem, if_neg (not_lt.mpr hexp),
    hexdb_fetch_meta]

theorem hexdb_stale_failure_overwrites_witness :
    dictFind c2_cache (pyLower "abc") = some (c2_meta, 0) ∧
    (86400 : ℚ) ≤ 86400 - 0 ∧
    get_hexdb_metadata c2_cache "abc" 86400 86400 .exn =
      ([], dictSet c2_cache (pyLower "abc") ([], 86400), 1) :=
  ⟨by decide, by norm_num,
    hexdb_stale_failure_overwrites c2_cache "abc" 86400 86400 c2_meta 0
      (by decide) (by norm_num)⟩

/-! ### Claim C9 -/

/-- C9: a lookup within `ttl` of the cached fetch performs no external
call and returns the cached entry (cache untouched); a lookup at or past
`ttl` performs exactly one external call. -/
theorem hexdb_cache_ttl (cache : Cache) (hexcode : String) (now ttl : ℚ)
    (fetch : FetchResult) (meta : Meta) (fetched_at : ℚ)
    (hmem : dictFind cache (pyLower hexcode) = some (meta, fetched_at)) :
    (now - fetched_at < ttl →
      get_hexdb_metadata cache hexcode now ttl fetch = (meta, cache, 0)) ∧
    (ttl ≤ now - fetched_at →
      (get_hexdb_metadata cache hexcode now ttl fetch).2.2 = 1) := by
  constructor
  · intro h
    simp only [get_hexdb_metadata, hmem, if_pos h]
  · intro h
    simp only [get_hexdb_metadata, hmem, if_neg (not_lt.mpr h)]

theorem hexdb_cache_ttl_witness :
    dictFind c9_cache (pyLower "a1b2c3") =
      some ([("Registration", "N12345")], 100) ∧
    (150 : ℚ) - 100 < 86400 ∧
    get_hexdb_metadata c9_cache "a1b2c3" 150 86400 .exn =
      ([("Registration", "N12345")], c9_cache, 0) ∧
    (86400 : ℚ) ≤ 100000 - 100 ∧
    (get_hexdb_metadata c9_cache "a1b2c3" 100000 86400 .exn).2.2 = 1 :=
  ⟨by decide, by norm_num,
    (hexdb_cache_ttl c9_cache "a1b2c3" 150 86400 .exn
      [("Registration", "N12345")] 100 (by decide)).1 (by norm_num),
    by norm_num,
    (hexdb_cache_ttl c9_cache "a1b2c3" 100000 86400 .exn
      [("Registration", "N12345")] 100 (by decide)).2 (by norm_num)⟩

/-! ### Claim C6 -/

/-- C6: a report is applied (observation built and appended under a fresh
key) iff its identity is non-empty after strip/lower, its `seen_pos`
field is present with value ≤ 300, and both coordinates are present; any
report failing the filter leaves the session untouched. -/
theorem ingest_filter_iff (plane : Plane) (home_lat home_lon : ℚ)
    (now_utc : String) (hd : Session) :
    (∀ sp, pyLower (pyStrip (plane.hex.getD "")) ≠ "" →
      plane.seen_pos = some sp → sp ≤ 300 →
      plane.lat ≠ none → plane.lon ≠ none →
      ingest_step plane home_lat home_lon now_utc hd =
        hd ++ [(choose_store_key (hd.map Prod.fst) now_utc,
          build_observation plane home_lat home_lon now_utc)]) ∧
    ((pyLower (pyStrip (plane.hex.getD "")) = "" ∨ plane.seen_pos = none ∨
      (∃ sp, plane.seen_pos = some sp ∧ 300 < sp) ∨
      plane.lat = none ∨ plane.lon = none) →
      ingest_step plane home_lat home_lon now_utc hd = hd) := by
  constructor
  · intro sp h1 h2 h3 h4 h5
    have hlat : plane.lat.isNone = false := by
      rcases hl : plane.lat with _ | v
      · exact absurd hl h4
      · rfl
    have hlon : plane.lon.isNone = false := by
      rcases hl : plane.lon with _ | v
      · exact absurd hl h5
      · rfl
    simp only [ingest_step, h2, if_neg h1, if_neg (not_lt.mpr h3), hlat,
      hlon, Bool.or_self, Bool.false_eq_true, if_false]
    rfl
  · intro hfail
    unfold ingest_step
    by_cases h1 : pyLower (pyStrip (plane.hex.getD "")) = ""
    · rw [if_pos h1]
    · rw [if_neg h1]
      rcases hsp : plane.seen_pos with _ | sp
      · rfl
      · rcases hfail with h | h | ⟨sp', hsp', hgt⟩ | h | h
        · exact absurd h h1
        · rw [hsp] at h; exact Option.noConfusion h
        · rw [hsp] at hsp'
          obtain rfl : sp = sp' := Option.some_inj.mp hsp'
          simp only [if_pos hgt]
        · have : plane.lat.isNone = true := by rw [h]; rfl
          simp only [this, Bool.true_or]
          split
          · rfl
          · rfl
        · have : plane.lon.isNone = true := by rw [h]; rfl
          simp only [this, Bool.or_true]
          split
          · rfl
          · rfl

theorem ingest_filter_iff_witness :
    (pyLower (pyStrip (c6_plane.hex.getD "")) ≠ "" ∧
     c6_plane.seen_pos = some 10 ∧ (10 : ℚ) ≤ 300 ∧
     c6_plane.lat ≠ none ∧ c6_plane.lon ≠ none) ∧
    ingest_step c6_plane 51 0 "2025-01-01T00:00:10Z" c6_session =
      c6_session ++ [("2025-01-01T00:00:10Z",
        build_observation c6_plane 51 0 "2025-01-01T00:00:10Z")] ∧
    ingest_step c6_plane_nolat 51 0 "2025-01-01T00:00:10Z" c6_session =
      c6_session := by
  refine ⟨⟨by decide, rfl, by norm_num, by decide, by decide⟩, ?_, ?_⟩
  · have h := (ingest_filter_iff c6_plane 51 0 "2025-01-01T00:00:10Z"
      c6_session).1 10 (by decide) rfl (by norm_num) (by decide) (by decide)
    rw [h]
    have hk : choose_store_key (c6_session.map Prod.fst)
        "2025-01-01T00:00:10Z" = "2025-01-01T00:00:10Z" := by decide
    rw [hk]
  · exact (ingest_filter_iff c6_plane_nolat 51 0 "2025-01-01T00:00:10Z"
      c6_session).2 (Or.inr (Or.inr (Or.inr (Or.inl rfl))))

/-! ### Claim C7 -/

/-- C7: if the selected observation's flight-number is non-empty the merge
changes nothing; if it is empty, the merge yields the selected observation
with only its `flight` field replaced (a `\x7b best with flight := .. \x7d`
update, so every other field is unchanged) by the flight-number of the
first observation in the session scan whose flight is non-empty — entries
with empty flight, including the selected observation's own entry, are
skipped — or stays unchanged when no observation has one. -/
theorem merge_flight_rule (best : Obs) (all : Session) :
    (best.flight ≠ "" → ensure_flight_info best all = best) ∧
    (best.flight = "" →
      (∃ pre e suf, all = pre ++ e :: suf ∧
        (∀ x ∈ pre, x.2.flight = "") ∧ e.2.flight ≠ "" ∧
        ensure_flight_info best all =
          { best with flight := e.2.flight }) ∨
      ((∀ e ∈ all, e.2.flight = "") ∧
        ensure_flight_info best all = best)) := by
  constructor
  · intro h
    unfold ensure_flight_info
    rw [if_pos h]
  · intro h
    have hres : ensure_flight_info best all =
        match all.find? (fun e => e.2.flight != "") with
        | some e => { best with flight := e.2.flight }
        | none => best := by
      unfold ensure_flight_info
      rw [if_neg (by simp [h])]
    rcases hf : all.find? (fun e => e.2.flight != "") with _ | e
    · refine Or.inr ⟨?_, by rw [hres, hf]⟩
      intro e he
      have := List.find?_eq_none.mp hf e he
      simpa using this
    · obtain ⟨pre, suf, heq, hpre, hpa⟩ := find?_first _ all e hf
      refine Or.inl ⟨pre, e, suf, heq, ?_, by simpa using hpa,
        by rw [hres, hf]⟩
      intro x hx
      have := hpre x hx
      simpa using this

theorem merge_flight_rule_witness :
    c7_best.flight = "" ∧
    ((∃ pre e suf, c7_all = pre ++ e :: suf ∧
        (∀ x ∈ pre, x.2.flight = "") ∧ e.2.flight ≠ "" ∧
        ensure_flight_info c7_best c7_all =
          { c7_best with flight := e.2.flight }) ∨
     ((∀ e ∈ c7_all, e.2.flight = "") ∧
        ensure_flight_info c7_best c7_all = c7_best)) :=
  ⟨rfl, (merge_flight_rule c7_best c7_all).2 rfl⟩

/-! ### Claim C8 -/

/-- C8: the key actually used for an append is never one of the session's
existing keys (when the timestamp collides it is a suffixed variant
`ts-n`, `n ≥ 2`), every previously stored observation survives the append
unchanged, the new observation is present, and key uniqueness is
preserved. -/
theorem append_collision_safe (hd : Session) (ts : String) (obs : Obs)
    (hnodup : (hd.map Prod.fst).Nodup) :
    choose_store_key (hd.map Prod.fst) ts ∉ hd.map Prod.fst ∧
    (ts ∈ hd.map Prod.fst →
      ∃ n, 2 ≤ n ∧ choose_store_key (hd.map Prod.fst) ts =
        ts ++ "-" ++ natDecimal n) ∧
    (∀ e ∈ hd, e ∈ hd ++ [(choose_store_key (hd.map Prod.fst) ts, obs)]) ∧
    (choose_store_key (hd.map Prod.fst) ts, obs) ∈
      hd ++ [(choose_store_key (hd.map Prod.fst) ts, obs)] ∧
    ((hd ++ [(choose_store_key (hd.map Prod.fst) ts, obs)]).map
      Prod.fst).Nodup := by
  obtain ⟨hfree, hform⟩ := choose_store_key_spec (hd.map Prod.fst) ts
  refine ⟨hfree, ?_, ?_, ?_, ?_⟩
  · intro hts
    rcases hform with heq | h
    · exact absurd hts (heq ▸ hfree)
    · exact h
  · intro e he
    exact List.mem_append_left _ he
  · exact List.mem_append_right _ (List.mem_singleton_self _)
  · rw [List.map_append]
    refine List.Nodup.append hnodup (List.nodup_singleton _) ?_
    intro a ha hmem
    rw [show ([(choose_store_key (hd.map Prod.fst) ts, obs)].map
      Prod.fst) = [choose_store_key (hd.map Prod.fst) ts] from rfl] at hmem
    rw [List.mem_singleton] at hmem
    subst hmem
    exact hfree ha

theorem append_collision_safe_witness :
    (c8_session.map Prod.fst).Nodup ∧
    choose_store_key (c8_session.map Prod.fst) "2025-01-01T00:00:00Z" =
      "2025-01-01T00:00:00Z-2" ∧
    choose_store_key (c8_session.map Prod.fst) "2025-01-01T00:00:00Z" ∉
      c8_session.map Prod.fst ∧
    (∃ n, 2 ≤ n ∧
      choose_store_key (c8_session.map Prod.fst) "2025-01-01T00:00:00Z" =
        "2025-01-01T00:00:00Z" ++ "-" ++ natDecimal n) :=
  ⟨by decide, by decide,
    (append_collision_safe c8_session "2025-01-01T00:00:00Z" c8_obs
      (by decide)).1,
    (append_collision_safe c8_session "2025-01-01T00:00:00Z" c8_obs
      (by decide)).2.1 (by decide)⟩

/-! ### Claim C3 -/

/-- C3: on a session with at least one non-null distance (all stored
distances being nonnegative, as every distance the program stores is a
`haversine_km` result — see `haversine_km_nonneg`), selection returns an
observation whose distance is the maximum of all non-null distances, the
merge step leaves that distance untouched, and the finalized row's
`max_distance_km` equals it. -/
theorem finalized_max_distance (data : Session)
    (hnn : ∀ e ∈ data, ∀ d, e.2.distance_km = some d → 0 ≤ d)
    (e₀ : String × Obs) (he₀ : e₀ ∈ data) (d₀ : ℚ)
    (hd₀ : e₀.2.distance_km = some d₀)
    (hexcode first_seen last_seen : String) (cache : Cache) (now ttl : ℚ)
    (fetch : FetchResult) :
    ∃ ts obs m, select_max_distance_datapoint data = some (ts, obs) ∧
      obs.distance_km = some m ∧
      (build_db_row hexcode ts (ensure_flight_info obs data) first_seen
        last_seen cache now ttl fetch).1.max_distance_km = some m ∧
      (∃ e ∈ data, e.2.distance_km = some m) ∧
      (∀ e ∈ data, ∀ d, e.2.distance_km = some d → d ≤ m) := by
  have hgt : (-1 : ℚ) < d₀ :=
    lt_of_lt_of_le (by norm_num) (hnn e₀ he₀ d₀ hd₀)
  obtain ⟨e, hscan, hmem, hdist, hmax⟩ :=
    select_loop_finds_max data e₀ he₀ d₀ hd₀ hgt
  obtain ⟨ts, obs⟩ := e
  refine ⟨ts, obs, (select_loop data none (-1)).2,
    select_eq_of_scan data _ hscan, hdist, ?_,
    ⟨(ts, obs), hmem, hdist⟩, hmax⟩
  have hframe := (ensure_flight_info_frame obs data).2.2.2.2.2.2.2.2.1
  show (ensure_flight_info obs data).distance_km = some _
  rw [hframe, hdist]

theorem finalized_max_distance_witness :
    (∀ e ∈ c3_session, ∀ d, e.2.distance_km = some d → 0 ≤ d) ∧
    ("2025-01-01T00:05:00Z", c3_obs1) ∈ c3_session ∧
    c3_obs1.distance_km = some 13 ∧
    (∃ ts obs m,
      select_max_distance_datapoint c3_session = some (ts, obs) ∧
      obs.distance_km = some m ∧
      (build_db_row "xyz999" ts (ensure_flight_info obs c3_session)
        "2025-01-01T00:05:00Z" "2025-01-01T00:10:00Z" [] 0 86400
        .exn).1.max_distance_km = some m ∧
      (∃ e ∈ c3_session, e.2.distance_km = some m) ∧
      (∀ e ∈ c3_session, ∀ d, e.2.distance_km = some d → d ≤ m)) := by
  have hnn : ∀ e ∈ c3_session, ∀ d, e.2.distance_km = some d → 0 ≤ d := by
    intro e he d hd
    rcases (by simpa [c3_session] using he :
        e = ("2025-01-01T00:05:00Z", c3_obs1) ∨
        e = ("2025-01-01T00:10:00Z", c3_obs2)) with rfl | rfl
    · obtain rfl : (13 : ℚ) = d := by
        simpa [c3_obs1] using hd
      norm_num
    · obtain rfl : (5 : ℚ) = d := by
        simpa [c3_obs2] using hd
      norm_num
  exact ⟨hnn, by decide, rfl,
    finalized_max_distance c3_session hnn ("2025-01-01T00:05:00Z", c3_obs1)
      (by decide) 13 rfl "xyz999" "2025-01-01T00:05:00Z"
      "2025-01-01T00:10:00Z" [] 0 86400 .exn⟩

/-! ### Claim C5 -/

/-- C5: once a non-empty session passes the age test, the per-hex file is
deleted exactly when the sink insert succeeds: if the insert raises, no
row is recorded and the session file stays in place (to be retried on the
next cleanup cycle); if it succeeds, a row is recorded and the file is
deleted. -/
theorem evict_only_after_insert (hexcode : String) (data : Session)
    (age_seconds cleanup_age : ℚ) (cache : Cache) (now ttl : ℚ)
    (fetch : FetchResult) (hne : data ≠ [])
    (hage : ¬ age_seconds < cleanup_age) :
    ((cleanup_hex hexcode data age_seconds cleanup_age cache now ttl fetch
        false).deleted = false ∧
     (cleanup_hex hexcode data age_seconds cleanup_age cache now ttl fetch
        false).inserted = none) ∧
    ((cleanup_hex hexcode data age_seconds cleanup_age cache now ttl fetch
        true).deleted = true ∧
     ∃ row, (cleanup_hex hexcode data age_seconds cleanup_age cache now
        ttl fetch true).inserted = some row) := by
  obtain ⟨⟨ts, obs⟩, hsel⟩ := select_some_of_ne_nil data hne
  have hemp : data.isEmpty = false := by
    cases data
    · exact absurd rfl hne
    · rfl
  refine ⟨⟨?_, ?_⟩, ?_, ?_⟩ <;>
    simp [cleanup_hex, hemp, hsel, if_neg hage]

theorem evict_only_after_insert_witness :
    c5_data ≠ [] ∧ ¬ ((2000 : ℚ) < 1800) ∧
    (((cleanup_hex "ab12cd" c5_data 2000 1800 [] 0 86400 .exn
        false).deleted = false ∧
      (cleanup_hex "ab12cd" c5_data 2000 1800 [] 0 86400 .exn
        false).inserted = none) ∧
     ((cleanup_hex "ab12cd" c5_data 2000 1800 [] 0 86400 .exn
        true).deleted = true ∧
      ∃ row, (cleanup_hex "ab12cd" c5_data 2000 1800 [] 0 86400 .exn
        true).inserted = some row)) :=
  ⟨by simp [c5_data], by norm_num,
    evict_only_after_insert "ab12cd" c5_data 2000 1800 [] 0 86400 .exn
      (by simp [c5_data]) (by norm_num)⟩

/-! ### Claim C10 -/

/-- C10: every observation appended by the ingest path (a report that
passed the filter, so both coordinates present) carries a non-null
`distance_km` — `build_observation` stamps a `haversine_km` value, which
is nonnegative and hence above the `-1.0` scan sentinel — so on any
session populated solely by ingest the selection scan ends with a best
entry and the latest-timestamp fallback branch is never taken. -/
theorem ingest_distance_no_fallback (data : Session) (hne : data ≠ [])
    (hprov : ∀ e ∈ data, ∃ plane home_lat home_lon now_utc,
      pyLower (pyStrip ((plane : Plane).hex.getD "")) ≠ "" ∧
      (∃ sp, plane.seen_pos = some sp ∧ sp ≤ 300) ∧
      plane.lat ≠ none ∧ plane.lon ≠ none ∧
      e.2 = build_observation plane home_lat home_lon now_utc) :
    (∀ e ∈ data, e.2.distance_km ≠ none) ∧
    (select_loop data none (-1)).1 ≠ none := by
  have hdist : ∀ e ∈ data, ∃ q, e.2.distance_km = some q ∧ 0 ≤ q := by
    intro e he
    obtain ⟨plane, hl, hn, nu, _, _, hlat, hlon, heq⟩ := hprov e he
    rcases hplat : plane.lat with _ | la
    · exact absurd hplat hlat
    rcases hplon : plane.lon with _ | lo
    · exact absurd hplon hlon
    refine ⟨haversine_km hl hn la lo, ?_, haversine_km_nonneg _ _ _ _⟩
    rw [heq]
    simp [build_observation, hplat, hplon]
  constructor
  · intro e he
    obtain ⟨q, hq, _⟩ := hdist e he
    rw [hq]
    exact Option.noConfusion
  · cases data with
    | nil => exact absurd rfl hne
    | cons x xs =>
      obtain ⟨q, hq, hq0⟩ := hdist x (List.mem_cons_self _ _)
      obtain ⟨e, hscan, _, _, _⟩ := select_loop_finds_max (x :: xs) x
        (List.mem_cons_self _ _) q hq
        (lt_of_lt_of_le (by norm_num) hq0)
      rw [hscan]
      exact Option.noConfusion

theorem ingest_distance_no_fallback_witness :
    c10_data ≠ [] ∧
    (∀ e ∈ c10_data, e.2.distance_km ≠ none) ∧
    (select_loop c10_data none (-1)).1 ≠ none := by
  have hprov : ∀ e ∈ c10_data, ∃ plane home_lat home_lon now_utc,
      pyLower (pyStrip ((plane : Plane).hex.getD "")) ≠ "" ∧
      (∃ sp, plane.seen_pos = some sp ∧ sp ≤ 300) ∧
      plane.lat ≠ none ∧ plane.lon ≠ none ∧
      e.2 = build_observation plane home_lat home_lon now_utc := by
    intro e he
    rcases (by simpa [c10_data] using he :
        e = ("2025-01-01T00:00:00Z",
          build_observation c10_plane 51 0 "2025-01-01T00:00:00Z")) with rfl
    exact ⟨c10_plane, 51, 0, "2025-01-01T00:00:00Z", by decide,
      ⟨5, rfl, by norm_num⟩, by decide, by decide, rfl⟩
  have hne : c10_data ≠ [] := by simp [c10_data]
  exact ⟨hne, (ingest_distance_no_fallback c10_data hne hprov).1,
    (ingest_distance_no_fallback c10_data hne hprov).2⟩

end Tracker
